import Mathlib

/-!
Verification of the es-translator repository.

The Python sources are shallowly embedded: each Python function of interest
is translated into an executable Lean definition over explicit data.
External effects (network fetches, the multiprocessing queue, the shared
fatal cell) are modelled as explicit parameters recording what the
environment did, so that the control flow of the embedded code stays
exactly the control flow of the source.
-/

deriving instance DecidableEq for Except

namespace EsTranslatorSpec

/-! ### Python string primitives, embedded structurally -/

/-- Python `str.upper` restricted to the ASCII range, which covers every
language name and code handled by the repository. -/
def pyUpper (s : String) : String :=
  String.mk (s.data.map Char.toUpper)

/-- Python `s.split(sep)` for a single-character separator, on char lists:
`''.split('-') == ['']`, separators at the ends produce empty parts. -/
def splitOnChar (sep : Char) : List Char → List (List Char)
  | [] => [[]]
  | c :: cs =>
    match splitOnChar sep cs with
    | [] => [[c]]
    | r :: rs => if c = sep then [] :: r :: rs else (c :: r) :: rs

/-- Python `s.split('-')` on strings. -/
def pySplitDash (s : String) : List String :=
  (splitOnChar '-' s.data).map String.mk

/-- Python `s.split('/')` on strings. -/
def pySplitSlash (s : String) : List String :=
  (splitOnChar '/' s.data).map String.mk

/-- Python slicing `s[:n]` for an integer bound `n`: a non-negative bound
keeps the first `n` code points, a negative bound drops the last `|n|`
code points (clamped at zero, as in Python). -/
def pySliceTo (s : String) (n : Int) : String :=
  if 0 ≤ n then String.mk (s.data.take n.toNat)
  else String.mk (s.data.take (s.data.length - n.natAbs))

/-- Structural prefix test on char lists. -/
def listStartsWith : List Char → List Char → Bool
  | _, [] => true
  | [], _ :: _ => false
  | c :: cs, p :: ps => c == p && listStartsWith cs ps

/-- Structural suffix test on char lists. -/
def listEndsWith (s p : List Char) : Bool :=
  listStartsWith s.reverse p.reverse


/-! ### alpha.py — language code conversion

The functions read the ISO 639 table shipped with the pycountry library.
That table is external data, so it enters the embedding as an explicit
list of entries; `pycountryLanguages` below is a concrete finite fragment
of it (the languages exercised by the repository) used by witnesses. -/

/-- One entry of the pycountry ISO 639 language table.  `alpha_2` is
optional because many ISO 639-3 languages carry no two-letter code;
reading the missing attribute in Python raises `AttributeError`. -/
structure PyLanguage where
  alpha_2 : Option String
  alpha_3 : String
  name : String
deriving DecidableEq, Repr

/-- Outcomes of the alpha.py conversion helpers other than success:
the typed `InvalidLanguageCode(code)` raised by the module itself, and
the `AttributeError` Python raises when a looked-up entry lacks the
requested attribute. -/
inductive AlphaError where
  | invalidLanguageCode (code : String)
  | attributeError
deriving DecidableEq, Repr

/-- pycountry `languages.get(alpha_3=code)`: first entry with that
three-letter code, `None` when absent. -/
def languagesGetAlpha3 (table : List PyLanguage) (code : String) : Option PyLanguage :=
  table.find? (fun l => l.alpha_3 == code)

/-- pycountry `languages.get(alpha_2=code)`: first entry with that
two-letter code, `None` when absent. -/
def languagesGetAlpha2 (table : List PyLanguage) (code : String) : Option PyLanguage :=
  table.find? (fun l => l.alpha_2 == some code)

/-- `alpha.to_alpha_2`: a three-letter code is looked up (unknown code
raises `InvalidLanguageCode`, an entry without a two-letter form raises
`AttributeError`); any other input is returned unchanged. -/
def to_alpha_2 (table : List PyLanguage) (code : String) : Except AlphaError String :=
  if code.length = 3 then
    match languagesGetAlpha3 table code with
    | none => .error (.invalidLanguageCode code)
    | some lang =>
      match lang.alpha_2 with
      | none => .error .attributeError
      | some a => .ok a
  else .ok code

/-- `alpha.to_alpha_3`: a two-letter code is looked up (unknown code
raises `InvalidLanguageCode`); any other input is returned unchanged. -/
def to_alpha_3 (table : List PyLanguage) (code : String) : Except AlphaError String :=
  if code.length = 2 then
    match languagesGetAlpha2 table code with
    | none => .error (.invalidLanguageCode code)
    | some lang => .ok lang.alpha_3
  else .ok code

/-- `alpha.to_name`: look up the two-letter code, return the display
name, raise `InvalidLanguageCode` when absent. -/
def to_name (table : List PyLanguage) (alpha_2 : String) : Except AlphaError String :=
  match languagesGetAlpha2 table alpha_2 with
  | none => .error (.invalidLanguageCode alpha_2)
  | some lang => .ok lang.name

/-- A code belongs to the recognized ISO 639 set of a table when some
entry carries it as its two-letter or its three-letter form. -/
def isRecognized (table : List PyLanguage) (code : String) : Bool :=
  table.any (fun l => l.alpha_2 == some code || l.alpha_3 == code)

/-- Concrete finite fragment of the pycountry ISO 639 table: the
languages used in the repository and its tests, plus one language
(Asturian) that has no two-letter code. -/
def pycountryLanguages : List PyLanguage :=
  [ { alpha_2 := some "en", alpha_3 := "eng", name := "English" },
    { alpha_2 := some "fr", alpha_3 := "fra", name := "French" },
    { alpha_2 := some "es", alpha_3 := "spa", name := "Spanish" },
    { alpha_2 := some "de", alpha_3 := "deu", name := "German" },
    { alpha_2 := some "pt", alpha_3 := "por", name := "Portuguese" },
    { alpha_2 := some "ca", alpha_3 := "cat", name := "Catalan" },
    { alpha_2 := none, alpha_3 := "ast", name := "Asturian" } ]


/-! ### es.py — TranslatedHit -/

/-- A translation record as appended by `TranslatedHit.add_translation`:
`{translator, source_language, target_language, content}`. -/
structure Translation where
  translator : String
  source_language : String
  target_language : String
  content : String
deriving DecidableEq, Repr

/-- The slice of an interpreter visible to `TranslatedHit`: its `name`,
the display names of its languages, and its back-end `translate` call
(applied to the optional source field value). -/
structure Interpreter where
  name : String
  source_name : String
  target_name : String
  translate : Option String → String

/-- The state of a `TranslatedHit` wrapper: the wrapped document fields
the class reads and writes, its metadata, and the `force` flag. -/
structure TranslatedHit where
  source_value : Option String
  translations : List Translation
  id : String
  index : String
  routing : Option String
  target_field : String
  force : Bool
deriving DecidableEq, Repr

/-- The predicate `same_languages` used by `TranslatedHit.is_translated`:
the stored record matches the uppercased language names and the
translator name. -/
def same_languages (source_language target_language translator : String)
    (t : Translation) : Bool :=
  t.source_language == pyUpper source_language &&
    t.target_language == pyUpper target_language &&
    t.translator == translator

/-- `TranslatedHit.is_translated`: some stored record matches the triple. -/
def is_translated (h : TranslatedHit)
    (source_language target_language translator : String) : Bool :=
  h.translations.any (same_languages source_language target_language translator)

/-- The record built inside `TranslatedHit.add_translation`: translate the
source value, truncate unless `max_content_length` is `-1`, store the
uppercased language names. -/
def newTranslation (interpreter : Interpreter) (max_content_length : Int)
    (source_value : Option String) : Translation :=
  { translator := interpreter.name,
    source_language := pyUpper interpreter.source_name,
    target_language := pyUpper interpreter.target_name,
    content :=
      if max_content_length = -1 then interpreter.translate source_value
      else pySliceTo (interpreter.translate source_value) max_content_length }

/-- `TranslatedHit.add_translation`.  The returned Bool records whether
the back-end `interpreter.translate` call was issued (and hence whether a
record was appended). -/
def add_translation (h : TranslatedHit) (interpreter : Interpreter)
    (max_content_length : Int) : TranslatedHit × Bool :=
  if h.force ||
      !(is_translated h interpreter.source_name interpreter.target_name interpreter.name) then
    ({ h with translations :=
        h.translations ++ [newTranslation interpreter max_content_length h.source_value] },
      true)
  else (h, false)

/-- `k` successive runs of `add_translation` over the same document (each
engine run wraps the stored document and calls `add_translation` once);
also counts the total number of back-end translate calls issued. -/
def iterate_add_translation (interpreter : Interpreter) (max_content_length : Int) :
    Nat → TranslatedHit → TranslatedHit × Nat
  | 0, h => (h, 0)
  | k + 1, h =>
    let step := add_translation h interpreter max_content_length
    let rest := iterate_add_translation interpreter max_content_length k step.1
    (rest.1, (if step.2 then 1 else 0) + rest.2)

/-- Number of stored records matching the triple of the given interpreter. -/
def matchingCount (h : TranslatedHit) (interpreter : Interpreter) : Nat :=
  (h.translations.filter
    (same_languages interpreter.source_name interpreter.target_name interpreter.name)).length

/-! #### The update issued by `TranslatedHit.save` -/

/-- A value stored under a document field: free text or a list of
translation records. -/
inductive FieldValue where
  | text (s : String)
  | records (ts : List Translation)
deriving DecidableEq, Repr

/-- The update request `TranslatedHit.save` hands to
`client.update(index=..., id=..., routing=..., body=...)`; `body_doc` is
the mapping under the `doc` key of the body. -/
structure UpdateRequest where
  index : String
  id : String
  routing : Option String
  body_doc : List (String × FieldValue)
deriving DecidableEq, Repr

/-- `TranslatedHit.save`: the body is `{doc: {target_field: translations}}`. -/
def save (h : TranslatedHit) : UpdateRequest :=
  { index := h.index, id := h.id, routing := h.routing,
    body_doc := [(h.target_field, .records h.translations)] }

/-- A stored document, as the finite mapping from field names to values. -/
def getField (doc : List (String × FieldValue)) (k : String) : Option FieldValue :=
  (doc.find? (fun kv => kv.1 == k)).map (fun kv => kv.2)

/-- Set one field of a stored document, replacing an existing binding. -/
def setField (doc : List (String × FieldValue)) (k : String) (v : FieldValue) :
    List (String × FieldValue) :=
  match doc with
  | [] => [(k, v)]
  | kv :: rest => if kv.1 == k then (k, v) :: rest else kv :: setField rest k v

/-- Elasticsearch partial-update semantics for a `{doc: ...}` body: each
field present in the body is written, every other field is untouched. -/
def applyUpdate (doc : List (String × FieldValue)) (req : UpdateRequest) :
    List (String × FieldValue) :=
  req.body_doc.foldl (fun d kv => setField d kv.1 kv.2) doc

/-! ### interpreters/apertium/repository.py — ApertiumRepository -/

/-- A package descriptor parsed from one block of the Packages control
file.  Fields are optional: reading a missing key with `control['...']`
raises `KeyError`, with `.get` it yields `None`. -/
structure PackageDescriptor where
  Package : Option String := none
  Provides : Option String := none
  Filename : Option String := none
deriving DecidableEq, Repr

/-- `ApertiumRepository.is_apertium_pair`: split the `Package` value on
dashes and require exactly three parts led by `apertium`; a missing
`Package` key raises `KeyError`, which the method catches and turns into
`False`. -/
def is_apertium_pair (control : PackageDescriptor) : Bool :=
  match control.Package with
  | none => false
  | some p =>
    let parts := pySplitDash p
    parts.length == 3 && parts.headD "" == "apertium"

/-- Whether a character is in the character class `[a-z]`. -/
def isLowerAlpha (c : Char) : Bool :=
  'a' ≤ c && c ≤ 'z'

/-- Whether a string matches the anchored regular expression
`^apertium-[a-z]+-[a-z]+$`.  Because a `[a-z]+` block can never contain a
dash and `apertium` contains none, a string matches exactly when
splitting it on dashes yields the literal `apertium` followed by two
further parts that are nonempty and made of lowercase letters only. -/
def matchesApertiumPairRegex (s : String) : Bool :=
  match pySplitDash s with
  | [p, a, b] =>
    p == "apertium" && !a.isEmpty && !b.isEmpty &&
      a.data.all isLowerAlpha && b.data.all isLowerAlpha
  | _ => false


/-- The repository base URL of repository.py. -/
def REPOSITORY_URL : String := "https://apertium.projectjj.com/apt/nightly"

/-- Errors surfaced by the download path: a failed pool-directory fetch
(`URLError`), the exception raised when no matching `.deb` is listed, the
exception raised when the package is missing from the index, and the
`KeyError` raised when a descriptor lacks its `Filename`. -/
inductive RepoError where
  | urlError
  | packageNotFoundInPool (name : String)
  | packageNotFoundInRepository (name : String)
  | keyErrorFilename
deriving DecidableEq, Repr

/-- `ApertiumRepository.find_package`: the first descriptor whose
`Package` or `Provides` equals the requested name. -/
def find_package (packages : List PackageDescriptor) (package : String) :
    Option PackageDescriptor :=
  packages.find? (fun c => c.Package == some package || c.Provides == some package)

/-- Whether an anchor href is captured by the pattern
`href="(<name>_[^"]+\.deb)"` used in `find_latest_package_in_pool`: the
href starts with the package name followed by an underscore, ends in
`.deb`, and has at least one character in between. -/
def matchesPoolDeb (package_name href : String) : Bool :=
  listStartsWith href.data (package_name.data ++ ['_']) &&
    listEndsWith href.data ".deb".data &&
    package_name.length + 5 < href.length

/-- `ApertiumRepository.find_latest_package_in_pool`.  The environment is
explicit: `poolListing` is the list of anchor hrefs of the fetched pool
directory page in document order (`none` when the fetch itself fails).
`re.findall` preserves document order, and the code takes `matches[-1]`,
the last match in that order. -/
def find_latest_package_in_pool (package_name : String) (filename : String)
    (poolListing : Option (List String)) : Except RepoError String :=
  let pool_dir_url :=
    REPOSITORY_URL ++ "/" ++ String.intercalate "/" (pySplitSlash filename).dropLast ++ "/"
  match poolListing with
  | none => .error .urlError
  | some hrefs =>
    match (hrefs.filter (matchesPoolDeb package_name)).getLast? with
    | some latest_file => .ok (pool_dir_url ++ latest_file)
    | none => .error (.packageNotFoundInPool package_name)

/-- What `download_package` did to obtain `cache_dir/name/package.deb`. -/
inductive DownloadOutcome where
  | cachedFile
  | downloadedPrimary (url : String)
  | downloadedFromPool (url : String)
deriving DecidableEq, Repr

/-- `ApertiumRepository.download_package`.  The environment is explicit:
`cached` is `isfile(package_file)`, `primaryOk` tells whether
`urlretrieve` of the URL from the Packages file succeeds, and
`poolListing` is as in `find_latest_package_in_pool`. -/
def download_package (packages : List PackageDescriptor) (name : String)
    (force : Bool) (cached : Bool) (primaryOk : Bool)
    (poolListing : Option (List String)) : Except RepoError DownloadOutcome :=
  match find_package packages name with
  | none => .error (.packageNotFoundInRepository name)
  | some package =>
    if force || !cached then
      match package.Filename with
      | none => .error .keyErrorFilename
      | some filename =>
        let package_url := REPOSITORY_URL ++ "/" ++ filename
        if primaryOk then .ok (.downloadedPrimary package_url)
        else
          match find_latest_package_in_pool name filename poolListing with
          | .ok pool_url => .ok (.downloadedFromPool pool_url)
          | .error e => .error e
    else .ok .cachedFile

/-- Structural lexicographic comparison of char lists, the order Python
uses to compare strings code point by code point. -/
def lexLtChars : List Char → List Char → Bool
  | [], [] => false
  | [], _ :: _ => true
  | _ :: _, [] => false
  | a :: as, b :: bs =>
    if a < b then true else if b < a then false else lexLtChars as bs

/-- Lexicographic strict order on strings. -/
def lexLt (a b : String) : Bool :=
  lexLtChars a.data b.data

/-- Lexicographically greatest element of a list of strings. -/
def lexLast (l : List String) : Option String :=
  l.foldl
    (fun acc s =>
      match acc with
      | none => some s
      | some a => some (if lexLt a s then s else a))
    none

/-! ### es_translator.py — the producer side of the engine run

`EsTranslator.translate_documents_in_pool` iterates over the scanned
hits; for each hit `process_document` puts `(self, hit)` on the bounded
queue with `pool_timeout`, advances the progress bar, and reads the
shared fatal cell once; after the loop it joins the queue and returns.
The environment of one run is recorded explicitly: per hit, whether the
`put` succeeded within the timeout, and the value of the shared fatal
cell at the one read performed after that put; plus the value the cell
holds by the time the join returns, which is listed because the source
never reads the cell again after the loop. -/

/-- The environment of one loop iteration of the producer. -/
structure HitEvent where
  enqueued : Bool
  fatalAfter : Option String
deriving DecidableEq, Repr

/-- The exceptions that can escape the producer loop: `queue.Full` from
a timed-out `put`, and `FatalTranslationException` raised after reading
a set fatal cell. -/
inductive RunError where
  | queueFull
  | fatalTranslation (e : String)
deriving DecidableEq, Repr

/-- `EsTranslator.process_document`: the `put` either succeeds within
`pool_timeout` or raises `queue.Full`, which propagates (there is no
handler in this method); then the fatal cell is read once and, if set,
`FatalTranslationException` is raised. -/
def process_document (ev : HitEvent) : Except RunError Unit :=
  if ev.enqueued then
    match ev.fatalAfter with
    | some e => .error (.fatalTranslation e)
    | none => .ok ()
  else .error .queueFull

/-- `EsTranslator.translate_documents_in_pool`: run `process_document`
on each scanned hit in order (an exception aborts the loop and
propagates), then join the queue and return.  The `fatalAtJoin`
parameter records the fatal cell value when the join returns; the source
contains no read of the cell after the loop, so the parameter does not
influence the result. -/
def translate_documents_in_pool (events : List HitEvent)
    (fatalAtJoin : Option String) : Except RunError Unit :=
  match events with
  | [] => .ok ()
  | ev :: rest =>
    match process_document ev with
    | .error e => .error e
    | .ok () => translate_documents_in_pool rest fatalAtJoin

/-- Log levels relevant to the run outcome. -/
inductive LogLevel where
  | warning
  | error
deriving DecidableEq, Repr

/-- Outcome of `start_now` as observed by the caller: the process exit
code and the log record emitted for an escaping exception. -/
structure RunReport where
  exitCode : Nat
  errorLog : Option (LogLevel × RunError)
deriving DecidableEq, Repr

/-- `EsTranslator.start_now` wraps the run in `print_done`, whose handler
catches `FatalTranslationException`, `ElasticsearchException` and
`queue.Full`, logs the exception with `logger.error`, and calls
`sys.exit(1)`; a normal return prints done and leaves the exit code 0.
(When the stdout log level is 20 or lower, `print_done` merely yields and
the same exceptions escape uncaught, which also aborts the run.) -/
def print_done_run (events : List HitEvent) (fatalAtJoin : Option String) :
    RunReport :=
  match translate_documents_in_pool events fatalAtJoin with
  | .ok () => { exitCode := 0, errorLog := none }
  | .error e => { exitCode := 1, errorLog := some (.error, e) }

/-- Number of hits the producer actually enqueued before the loop ended:
a timed-out `put` enqueues nothing and aborts the loop; a set fatal cell
aborts the loop right after a successful `put`. -/
def enqueuedCount : List HitEvent → Nat
  | [] => 0
  | ev :: rest =>
    if ev.enqueued then
      match ev.fatalAfter with
      | some _ => 1
      | none => 1 + enqueuedCount rest
    else 0

/-! ### es_translator.py — find_document (deferred-task path) -/

/-- A Python object as seen by `getattr` and by subscripting: `attrs` is
the attribute table consulted by `getattr`, `items` the mapping entries
consulted by `params[...]`.  For a plain dictionary the two are disjoint
worlds: the keys of the dictionary live in `items` and are never found
by `getattr`. -/
structure PyDict where
  attrs : List (String × String)
  items : List (String × String)
deriving DecidableEq, Repr

/-- Python `getattr(obj, name, default)`: consult the attribute table,
fall back to the default. -/
def pyGetattr (d : PyDict) (name deflt : String) : String :=
  match d.attrs.find? (fun kv => kv.1 == name) with
  | some kv => kv.2
  | none => deflt

/-- Python `d[key]` on a mapping: `None` here models `KeyError`. -/
def pyGetItem (d : PyDict) (key : String) : Option String :=
  (d.items.find? (fun kv => kv.1 == key)).map (fun kv => kv.2)

/-- The lookup `Document.get(index=..., id=..., routing=..., using=...)`
issued by `find_document`. -/
structure GetRequest where
  index : String
  id : String
  routing : String
deriving DecidableEq, Repr

/-- `EsTranslator.find_document`: reads `params['index']` and
`params['id']` (propagating `KeyError`, modelled as `none`), and computes
`routing = getattr(params, 'routing', params['id'])`. -/
def find_document (params : PyDict) : Option GetRequest :=
  match pyGetItem params "id", pyGetItem params "index" with
  | some id, some index =>
    some { index := index, id := id, routing := pyGetattr params "routing" id }
  | _, _ => none

/-! ### Concrete fixtures used by witnesses and counterexamples -/

/-- An English-to-Spanish interpreter whose back end answers `hola`. -/
def interpEngSpa : Interpreter :=
  { name := "APERTIUM", source_name := "English", target_name := "Spanish",
    translate := fun _ => "hola" }

/-- A document hit not yet carrying any translation. -/
def hitFresh : TranslatedHit :=
  { source_value := some "hello", translations := [], id := "doc1", index := "idx",
    routing := none, target_field := "content_translated", force := false }

/-- A document hit already carrying the English-to-Spanish Apertium record. -/
def hitDone : TranslatedHit :=
  { hitFresh with translations :=
      [{ translator := "APERTIUM", source_language := "ENGLISH",
         target_language := "SPANISH", content := "hola" }] }

/-! ### Helper lemmas about add_translation -/

/-- The freshly built record matches the triple of its own interpreter. -/
theorem same_languages_newTranslation (interpreter : Interpreter) (n : Int)
    (src : Option String) :
    same_languages interpreter.source_name interpreter.target_name interpreter.name
      (newTranslation interpreter n src) = true := by
  simp [same_languages, newTranslation]

/-- With `force` unset and a matching record present, `add_translation`
is a no-op and issues no back-end call. -/
theorem add_translation_noop (h : TranslatedHit) (interpreter : Interpreter) (n : Int)
    (hforce : h.force = false)
    (htr : is_translated h interpreter.source_name interpreter.target_name
      interpreter.name = true) :
    add_translation h interpreter n = (h, false) := by
  simp [add_translation, hforce, htr]

/-- When `force` is set or no matching record exists, `add_translation`
appends the freshly built record and issues exactly one back-end call. -/
theorem add_translation_appends (h : TranslatedHit) (interpreter : Interpreter) (n : Int)
    (hcond : h.force = true ∨
      is_translated h interpreter.source_name interpreter.target_name
        interpreter.name = false) :
    add_translation h interpreter n =
      ({ h with translations :=
          h.translations ++ [newTranslation interpreter n h.source_value] }, true) := by
  rcases hcond with hf | ht
  · simp [add_translation, hf]
  · simp [add_translation, ht]

/-- After the append, the document counts as translated for the triple. -/
theorem is_translated_after_append (h : TranslatedHit) (interpreter : Interpreter)
    (n : Int) :
    is_translated
      ({ h with translations :=
          h.translations ++ [newTranslation interpreter n h.source_value] })
      interpreter.source_name interpreter.target_name interpreter.name = true := by
  simp [is_translated, same_languages_newTranslation]

/-- The append increases the number of matching records by one. -/
theorem matchingCount_after_append (h : TranslatedHit) (interpreter : Interpreter)
    (n : Int) :
    matchingCount
      ({ h with translations :=
          h.translations ++ [newTranslation interpreter n h.source_value] })
      interpreter = matchingCount h interpreter + 1 := by
  simp [matchingCount, List.filter_append, same_languages_newTranslation]

/-- A document with no matching record does not count as translated. -/
theorem is_translated_eq_false_of_matchingCount_eq_zero (h : TranslatedHit)
    (interpreter : Interpreter) (hc : matchingCount h interpreter = 0) :
    is_translated h interpreter.source_name interpreter.target_name
      interpreter.name = false := by
  rw [matchingCount, List.length_eq_zero] at hc
  rw [is_translated]
  by_contra hne
  rw [Bool.not_eq_false, List.any_eq_true] at hne
  obtain ⟨t, ht, hp⟩ := hne
  have hmem : t ∈ h.translations.filter
      (same_languages interpreter.source_name interpreter.target_name interpreter.name) :=
    List.mem_filter.mpr ⟨ht, hp⟩
  rw [hc] at hmem
  exact absurd hmem (List.not_mem_nil t)

/-- Once the document counts as translated and `force` is unset, any
number of further runs leaves it unchanged and issues no call. -/
theorem iterate_add_translation_noop (interpreter : Interpreter) (n : Int) (k : Nat)
    (h : TranslatedHit) (hforce : h.force = false)
    (htr : is_translated h interpreter.source_name interpreter.target_name
      interpreter.name = true) :
    iterate_add_translation interpreter n k h = (h, 0) := by
  induction k with
  | zero => rfl
  | succ j ih =>
    rw [iterate_add_translation]
    rw [add_translation_noop h interpreter n hforce htr]
    simp [ih]

/-- C1: with `force=false`, a document whose translations already contain
a record matching the triple (uppercased source name, uppercased target
name, translator name) of the current interpreter is left untouched by
`add_translation` — no back-end call, no appended record; consequently,
starting from a document with no matching record, any positive number of
repeated runs leaves exactly one matching record and issues exactly one
back-end translate call in total. -/
theorem claim_C1 (h : TranslatedHit) (interpreter : Interpreter) (n : Int) (k : Nat)
    (hforce : h.force = false) :
    (is_translated h interpreter.source_name interpreter.target_name
        interpreter.name = true →
      add_translation h interpreter n = (h, false)) ∧
    (matchingCount h interpreter = 0 → 1 ≤ k →
      matchingCount (iterate_add_translation interpreter n k h).1 interpreter = 1 ∧
      (iterate_add_translation interpreter n k h).2 = 1) := by
  constructor
  · intro htr
    exact add_translation_noop h interpreter n hforce htr
  · intro hzero hk
    obtain ⟨j, rfl⟩ : ∃ j, k = j + 1 := ⟨k - 1, (Nat.succ_pred_eq_of_pos hk).symm⟩
    have hfalse := is_translated_eq_false_of_matchingCount_eq_zero h interpreter hzero
    rw [iterate_add_translation]
    rw [add_translation_appends h interpreter n (Or.inr hfalse)]
    have hnoop := iterate_add_translation_noop interpreter n j
      ({ h with translations :=
          h.translations ++ [newTranslation interpreter n h.source_value] })
      hforce (is_translated_after_append h interpreter n)
    simp only [hnoop]
    refine ⟨?_, rfl⟩
    rw [matchingCount_after_append h interpreter n, hzero]

/-- Witness for C1: a document already carrying the record is untouched;
a fresh document run twice ends with exactly one matching record and one
back-end call. -/
theorem claim_C1_witness :
    add_translation hitDone interpEngSpa (-1) = (hitDone, false) ∧
    matchingCount (iterate_add_translation interpEngSpa (-1) 2 hitFresh).1
      interpEngSpa = 1 ∧
    (iterate_add_translation interpEngSpa (-1) 2 hitFresh).2 = 1 := by
  refine ⟨(claim_C1 hitDone interpEngSpa (-1) 2 (by decide)).1 (by decide), ?_, ?_⟩
  · exact ((claim_C1 hitFresh interpEngSpa (-1) 2 rfl).2 (by decide) (by decide)).1
  · exact ((claim_C1 hitFresh interpEngSpa (-1) 2 rfl).2 (by decide) (by decide)).2

/-! ### Claim C4 — truncation -/

/-- An interpreter whose back end answers a single two-byte character. -/
def interpUnicode : Interpreter :=
  { name := "APERTIUM", source_name := "English", target_name := "Spanish",
    translate := fun _ => "é" }

/-- Counterexample to C4 as stated: with `max_content_length = 1` the
stored content is the full one-character string `é`, which occupies two
bytes in UTF-8 — the slice `content[:n]` counts code points, not bytes,
so the stored content is not truncated to `max_content_length` bytes. -/
theorem claim_C4_counterexample :
    (add_translation hitFresh interpUnicode 1).1.translations.map
      Translation.content = ["é"] ∧
    ("é" : String).utf8ByteSize = 2 ∧
    ¬ (("é" : String).utf8ByteSize ≤ 1) := by
  refine ⟨by decide, rfl, by decide⟩

/-- C4 amended: whenever `add_translation` appends a record, the stored
content is the translated text truncated to `max_content_length` code
points (Python slicing) when that parameter is non-negative, and the
untruncated text when it is `-1`. -/
theorem claim_C4 (h : TranslatedHit) (interpreter : Interpreter) (n : Int)
    (hcond : h.force = true ∨
      is_translated h interpreter.source_name interpreter.target_name
        interpreter.name = false) :
    (add_translation h interpreter n).1.translations =
      h.translations ++ [newTranslation interpreter n h.source_value] ∧
    (0 ≤ n → (newTranslation interpreter n h.source_value).content.data =
      (interpreter.translate h.source_value).data.take n.toNat) ∧
    (n = -1 → (newTranslation interpreter n h.source_value).content =
      interpreter.translate h.source_value) := by
  refine ⟨?_, ?_, ?_⟩
  · rw [add_translation_appends h interpreter n hcond]
  · intro hn
    have hne : ¬ n = -1 := by omega
    simp [newTranslation, pySliceTo, hn, hne]
  · intro hn
    simp [newTranslation, hn]

/-- Witness for C4 amended: truncating the translated text `hola` to 3
code points stores `hol`; with `-1` it is stored untouched. -/
theorem claim_C4_witness :
    (add_translation hitFresh interpEngSpa 3).1.translations =
      hitFresh.translations ++ [newTranslation interpEngSpa 3 hitFresh.source_value] ∧
    (newTranslation interpEngSpa 3 hitFresh.source_value).content.data =
      (interpEngSpa.translate hitFresh.source_value).data.take 3 ∧
    (newTranslation interpEngSpa (-1) hitFresh.source_value).content =
      interpEngSpa.translate hitFresh.source_value := by
  refine ⟨(claim_C4 hitFresh interpEngSpa 3 (Or.inr (by decide))).1,
    (claim_C4 hitFresh interpEngSpa 3 (Or.inr (by decide))).2.1 (by decide),
    (claim_C4 hitFresh interpEngSpa (-1) (Or.inr (by decide))).2.2 rfl⟩

/-! ### Claim C5 — outcomes of the alpha.py conversions -/

/-- Counterexample to C5 as stated: `zz` is not in the recognized ISO 639
set of the table, yet `to_alpha_2` succeeds and returns it unchanged
instead of raising `InvalidLanguageCode`. -/
theorem claim_C5_counterexample :
    to_alpha_2 pycountryLanguages "zz" = .ok "zz" ∧
    isRecognized pycountryLanguages "zz" = false := by
  decide

/-- C5 amended: `to_name` is total on the recognized two-letter set and
raises `InvalidLanguageCode` with the offending code otherwise, but
`to_alpha_2` validates only inputs of length 3 — an unknown 3-letter
code raises `InvalidLanguageCode`, a 3-letter code whose entry has no
two-letter form raises `AttributeError`, and every input of any other
length (unknown 2-letter codes included) is returned unchanged;
`to_alpha_3` symmetrically validates only inputs of length 2. -/
theorem claim_C5 (table : List PyLanguage) (code : String) :
    (code.length ≠ 3 → to_alpha_2 table code = .ok code) ∧
    (code.length = 3 → languagesGetAlpha3 table code = none →
      to_alpha_2 table code = .error (.invalidLanguageCode code)) ∧
    (code.length = 3 → ∀ lang, languagesGetAlpha3 table code = some lang →
      lang.alpha_2 = none → to_alpha_2 table code = .error .attributeError) ∧
    (code.length ≠ 2 → to_alpha_3 table code = .ok code) ∧
    (code.length = 2 → languagesGetAlpha2 table code = none →
      to_alpha_3 table code = .error (.invalidLanguageCode code)) ∧
    (languagesGetAlpha2 table code = none →
      to_name table code = .error (.invalidLanguageCode code)) ∧
    (∀ lang, languagesGetAlpha2 table code = some lang →
      to_name table code = .ok lang.name) := by
  refine ⟨?_, ?_, ?_, ?_, ?_, ?_, ?_⟩
  · intro hlen
    simp [to_alpha_2, hlen]
  · intro hlen hnone
    simp [to_alpha_2, hlen, hnone]
  · intro hlen lang hsome hnone
    simp [to_alpha_2, hlen, hsome, hnone]
  · intro hlen
    simp [to_alpha_3, hlen]
  · intro hlen hnone
    simp [to_alpha_3, hlen, hnone]
  · intro hnone
    simp [to_name, hnone]
  · intro lang hsome
    simp [to_name, hsome]

/-- Witness for C5 amended, on the concrete table: the unknown code `zz`
passes through `to_alpha_2` unchanged, is rejected by `to_alpha_3`, and
is rejected by `to_name`. -/
theorem claim_C5_witness :
    to_alpha_2 pycountryLanguages "zz" = .ok "zz" ∧
    to_alpha_3 pycountryLanguages "zz" = .error (.invalidLanguageCode "zz") ∧
    to_name pycountryLanguages "zz" = .error (.invalidLanguageCode "zz") := by
  refine ⟨(claim_C5 pycountryLanguages "zz").1 (by decide),
    (claim_C5 pycountryLanguages "zz").2.2.2.2.1 (by decide) (by decide),
    (claim_C5 pycountryLanguages "zz").2.2.2.2.2.1 (by decide)⟩

/-! ### Claim C6 — alpha_3 then alpha_2 agrees with alpha_2 -/

/-- C6: on a well-formed language table (three-letter codes really have
length 3 and determine their entry uniquely), converting a recognized
code to the 3-letter form and back to the 2-letter form agrees with
converting it to the 2-letter form directly — outcomes compared as
values, errors included. -/
theorem claim_C6 (table : List PyLanguage)
    (wflen : ∀ l ∈ table, l.alpha_3.length = 3)
    (wfinj : ∀ l1 ∈ table, ∀ l2 ∈ table, l1.alpha_3 = l2.alpha_3 → l1 = l2)
    (c : String) (hc : isRecognized table c = true) :
    (to_alpha_3 table c).bind (to_alpha_2 table) = to_alpha_2 table c := by
  by_cases h2 : c.length = 2
  · have hex : ∃ l, l ∈ table ∧ (l.alpha_2 == some c) = true := by
      rw [isRecognized, List.any_eq_true] at hc
      obtain ⟨l, hl, hp⟩ := hc
      rw [Bool.or_eq_true] at hp
      rcases hp with hp | hp
      · exact ⟨l, hl, hp⟩
      · exfalso
        have : l.alpha_3 = c := by simpa using hp
        have := wflen l hl
        rw [‹l.alpha_3 = c›] at this
        omega
    have hsome : (languagesGetAlpha2 table c).isSome := by
      rw [languagesGetAlpha2, List.find?_isSome]
      exact hex
    obtain ⟨e, he⟩ := Option.isSome_iff_exists.mp hsome
    have hmem : e ∈ table := List.mem_of_find?_eq_some he
    have he2 : e.alpha_2 = some c := by
      have := List.find?_some he
      simpa using this
    have hlen3 : e.alpha_3.length = 3 := wflen e hmem
    have hstep : to_alpha_3 table c = .ok e.alpha_3 := by
      simp [to_alpha_3, h2, languagesGetAlpha2] at he ⊢
      rw [he]
    rw [hstep]
    have hsome3 : (languagesGetAlpha3 table e.alpha_3).isSome := by
      rw [languagesGetAlpha3, List.find?_isSome]
      exact ⟨e, hmem, by simp⟩
    obtain ⟨e2, he2find⟩ := Option.isSome_iff_exists.mp hsome3
    have he2mem : e2 ∈ table := List.mem_of_find?_eq_some he2find
    have he2eq : e2.alpha_3 = e.alpha_3 := by
      have := List.find?_some he2find
      simpa using this
    have : e2 = e := wfinj e2 he2mem e hmem he2eq
    subst this
    have hback : to_alpha_2 table e2.alpha_3 = .ok c := by
      simp [to_alpha_2, hlen3, languagesGetAlpha3] at he2find ⊢
      rw [he2find]
      simp [he2]
    have hdirect : to_alpha_2 table c = .ok c := by
      have : ¬ c.length = 3 := by omega
      simp [to_alpha_2, this]
    rw [hdirect, ← hback]
    rfl
  · have hstep : to_alpha_3 table c = .ok c := by
      simp [to_alpha_3, h2]
    rw [hstep]
    rfl

/-- Witness for C6: the concrete table fragment is well formed and the
roundtrip law holds at the recognized code `en`. -/
theorem claim_C6_witness :
    (to_alpha_3 pycountryLanguages "en").bind (to_alpha_2 pycountryLanguages) =
      to_alpha_2 pycountryLanguages "en" :=
  claim_C6 pycountryLanguages (by decide) (by decide) "en" (by decide)

/-! ### Claim C7 — is_apertium_pair -/

/-- Counterexample to C7 as stated: the descriptor with
`Package = apertium-EN-ES` is accepted by `is_apertium_pair`, yet the
value does not match `^apertium-[a-z]+-[a-z]+$` (the regular expression
requires lowercase letters).  The two characterizations the claim treats
as equivalent differ, and the code implements the split-based one. -/
theorem claim_C7_counterexample :
    is_apertium_pair { Package := some "apertium-EN-ES" } = true ∧
    matchesApertiumPairRegex "apertium-EN-ES" = false := by
  decide

/-- A string matching the pair regular expression splits into exactly
three dash-separated parts led by `apertium`. -/
theorem matchesApertiumPairRegex_split (s : String)
    (hm : matchesApertiumPairRegex s = true) :
    (pySplitDash s).length = 3 ∧ (pySplitDash s).headD "" = "apertium" := by
  rw [matchesApertiumPairRegex] at hm
  rcases h : pySplitDash s with _ | ⟨x, _ | ⟨y, _ | ⟨z, _ | ⟨w, l⟩⟩⟩⟩ <;>
    rw [h] at hm <;> simp_all

/-- C7 amended: `is_apertium_pair` returns `True` exactly when the
descriptor carries a `Package` value that splits into exactly three
dash-separated parts with the first equal to `apertium` (descriptors
without a `Package` field are not pairs); matching
`^apertium-[a-z]+-[a-z]+$` is sufficient but not necessary for that. -/
theorem claim_C7 (control : PackageDescriptor) :
    (is_apertium_pair control = true ↔
      ∃ p, control.Package = some p ∧ (pySplitDash p).length = 3 ∧
        (pySplitDash p).headD "" = "apertium") ∧
    (∀ p, control.Package = some p → matchesApertiumPairRegex p = true →
      is_apertium_pair control = true) := by
  constructor
  · cases hp : control.Package with
    | none => simp [is_apertium_pair, hp]
    | some p => simp [is_apertium_pair, hp]
  · intro p hp hm
    obtain ⟨hlen, hhead⟩ := matchesApertiumPairRegex_split p hm
    rw [is_apertium_pair, hp]
    show ((pySplitDash p).length == 3 && (pySplitDash p).headD "" == "apertium") = true
    rw [hlen, hhead]
    rfl

/-- Witness for C7 amended: a regex-matching package is a pair, and the
split characterization is exhibited on it. -/
theorem claim_C7_witness :
    is_apertium_pair { Package := some "apertium-en-es" } = true ∧
    (∃ p, ({ Package := some "apertium-en-es" } : PackageDescriptor).Package = some p ∧
      (pySplitDash p).length = 3 ∧ (pySplitDash p).headD "" = "apertium") := by
  refine ⟨(claim_C7 { Package := some "apertium-en-es" }).2 "apertium-en-es" rfl (by decide), ?_⟩
  exact (claim_C7 { Package := some "apertium-en-es" }).1.mp (by decide)

/-! ### Claim C8 — download_package and the pool fallback -/

/-- A pool-directory listing whose anchors are not alphabetically
sorted: version 2.0.0 is listed before version 1.0.0. -/
def demoPoolHrefs : List String :=
  ["apertium-eng-spa_2.0.0-1_amd64.deb", "apertium-eng-spa_1.0.0-1_amd64.deb"]

/-- Counterexample to C8 as stated: on an unsorted listing the fallback
returns the last match in document order (version 1.0.0), not the
lexicographically last matching `.deb` (version 2.0.0). -/
theorem claim_C8_counterexample :
    find_latest_package_in_pool "apertium-eng-spa"
        "pool/main/a/apertium-eng-spa/apertium-eng-spa_1.0.0-1_amd64.deb"
        (some demoPoolHrefs) =
      .ok "https://apertium.projectjj.com/apt/nightly/pool/main/a/apertium-eng-spa/apertium-eng-spa_1.0.0-1_amd64.deb" ∧
    lexLast (demoPoolHrefs.filter (matchesPoolDeb "apertium-eng-spa")) =
      some "apertium-eng-spa_2.0.0-1_amd64.deb" ∧
    ("apertium-eng-spa_1.0.0-1_amd64.deb" : String) ≠
      "apertium-eng-spa_2.0.0-1_amd64.deb" := by
  refine ⟨by decide, by decide, by decide⟩

/-- C8 amended: `download_package` never re-downloads a cached
`package.deb` unless `force` is set; when it does download, the first
attempt is `REPO/<descriptor.Filename>`, and on failure it lists the
pool directory `dirname(Filename)` and selects the last matching `.deb`
in the order the anchors appear in the listing — the lexicographically
last one only when the listing is sorted — raising an error when no
`.deb` matches. -/
theorem claim_C8 (packages : List PackageDescriptor) (name filename : String)
    (force cached primaryOk : Bool) (hrefs : List String)
    (package : PackageDescriptor)
    (hfind : find_package packages name = some package)
    (hfile : package.Filename = some filename) :
    (force = false → cached = true →
      download_package packages name force cached primaryOk (some hrefs) =
        .ok .cachedFile) ∧
    ((force = true ∨ cached = false) → primaryOk = true →
      download_package packages name force cached primaryOk (some hrefs) =
        .ok (.downloadedPrimary (REPOSITORY_URL ++ "/" ++ filename))) ∧
    ((force = true ∨ cached = false) → primaryOk = false →
      download_package packages name force cached primaryOk (some hrefs) =
        match (hrefs.filter (matchesPoolDeb name)).getLast? with
        | some latest_file => .ok (.downloadedFromPool
            (REPOSITORY_URL ++ "/" ++
              String.intercalate "/" (pySplitSlash filename).dropLast ++ "/" ++
              latest_file))
        | none => .error (.packageNotFoundInPool name)) := by
  refine ⟨?_, ?_, ?_⟩
  · intro hf hc
    simp [download_package, hfind, hf, hc]
  · intro hor hp
    rcases hor with hf | hc
    · simp [download_package, hfind, hf, hfile, hp]
    · simp [download_package, hfind, hc, hfile, hp]
  · intro hor hp
    have hstep : download_package packages name force cached primaryOk (some hrefs) =
        match find_latest_package_in_pool name filename (some hrefs) with
        | .ok pool_url => .ok (.downloadedFromPool pool_url)
        | .error e => .error e := by
      rcases hor with hf | hc
      · simp [download_package, hfind, hf, hfile, hp]
      · simp [download_package, hfind, hc, hfile, hp]
    rw [hstep]
    show (match
        match (hrefs.filter (matchesPoolDeb name)).getLast? with
        | some latest_file => Except.ok (REPOSITORY_URL ++ "/" ++
            String.intercalate "/" (pySplitSlash filename).dropLast ++ "/" ++ latest_file)
        | none => Except.error (RepoError.packageNotFoundInPool name) with
      | Except.ok pool_url => Except.ok (DownloadOutcome.downloadedFromPool pool_url)
      | Except.error e => Except.error e) = _
    rcases (hrefs.filter (matchesPoolDeb name)).getLast? with _ | latest
    · rfl
    · rfl

/-- The descriptor used by the C8 witness. -/
def demoDescriptor : PackageDescriptor :=
  { Package := some "apertium-eng-spa",
    Filename := some "pool/main/a/apertium-eng-spa/apertium-eng-spa_1.0.0-1_amd64.deb" }

/-- The single-descriptor index used by the C8 witness. -/
def demoPackages : List PackageDescriptor :=
  [demoDescriptor]

/-- Witness for C8 amended: a cached package is not downloaded again,
and with an empty cache and a failing first attempt the unsorted demo
listing yields its document-order last match. -/
theorem claim_C8_witness :
    download_package demoPackages "apertium-eng-spa" false true false
      (some demoPoolHrefs) = .ok .cachedFile ∧
    download_package demoPackages "apertium-eng-spa" false false false
      (some demoPoolHrefs) =
      .ok (.downloadedFromPool
        "https://apertium.projectjj.com/apt/nightly/pool/main/a/apertium-eng-spa/apertium-eng-spa_1.0.0-1_amd64.deb") := by
  constructor
  · exact (claim_C8 demoPackages "apertium-eng-spa"
      "pool/main/a/apertium-eng-spa/apertium-eng-spa_1.0.0-1_amd64.deb"
      false true false demoPoolHrefs demoDescriptor (by decide) rfl).1 rfl rfl
  · have h := (claim_C8 demoPackages "apertium-eng-spa"
      "pool/main/a/apertium-eng-spa/apertium-eng-spa_1.0.0-1_amd64.deb"
      false false false demoPoolHrefs demoDescriptor (by decide) rfl).2.2 (Or.inr rfl) rfl
    rw [h]
    decide

/-! ### Claim C2 — a timed-out enqueue aborts the run -/

/-- Counterexample to C2 as stated: when the very first enqueue times
out, `queue.Full` propagates, the run exits with code 1 after logging the
exception at ERROR (not WARN), and no document is enqueued at all — the
producer does not retry and the remaining in-scope documents are never
translated. -/
theorem claim_C2_counterexample :
    print_done_run [⟨false, none⟩, ⟨true, none⟩] none =
      { exitCode := 1, errorLog := some (.error, .queueFull) } ∧
    enqueuedCount [⟨false, none⟩, ⟨true, none⟩] = 0 := by
  decide

/-- C2 amended: when the producer cannot enqueue a work item within
`pool_timeout`, `queue.Full` propagates out of `process_document` and of
the scan loop; `print_done` logs it at ERROR and exits with status 1.
The producer does not retry: the failed hit and every hit after it are
never enqueued, so the run aborts instead of completing.  (The only
warning-level timeout handler sits in the worker, around a `get` call
that cannot raise `queue.Full`.) -/
theorem claim_C2 (pre post : List HitEvent) (ev : HitEvent)
    (fatalAtJoin : Option String)
    (hpre : ∀ e ∈ pre, e.enqueued = true ∧ e.fatalAfter = none)
    (hev : ev.enqueued = false) :
    translate_documents_in_pool (pre ++ ev :: post) fatalAtJoin =
      .error .queueFull ∧
    print_done_run (pre ++ ev :: post) fatalAtJoin =
      { exitCode := 1, errorLog := some (.error, .queueFull) } ∧
    enqueuedCount (pre ++ ev :: post) = pre.length := by
  have hrun : translate_documents_in_pool (pre ++ ev :: post) fatalAtJoin =
      .error .queueFull ∧
      enqueuedCount (pre ++ ev :: post) = pre.length := by
    induction pre with
    | nil =>
      constructor
      · rw [List.nil_append, translate_documents_in_pool]
        simp [process_document, hev]
      · rw [List.nil_append, enqueuedCount]
        simp [hev]
    | cons e rest ih =>
      obtain ⟨he1, he2⟩ := hpre e (List.mem_cons_self e rest)
      have ihh := ih (fun x hx => hpre x (List.mem_cons_of_mem e hx))
      constructor
      · rw [List.cons_append, translate_documents_in_pool]
        simp [process_document, he1, he2, ihh.1]
      · rw [List.cons_append, enqueuedCount]
        simp [he1, he2, ihh.2]
        omega
  exact ⟨hrun.1, by rw [print_done_run, hrun.1], hrun.2⟩

/-- Witness for C2 amended: one hit is enqueued, the second put times
out, the run aborts with exit code 1 and an ERROR log. -/
theorem claim_C2_witness :
    translate_documents_in_pool [⟨true, none⟩, ⟨false, none⟩] none =
      .error .queueFull ∧
    print_done_run [⟨true, none⟩, ⟨false, none⟩] none =
      { exitCode := 1, errorLog := some (.error, .queueFull) } ∧
    enqueuedCount [⟨true, none⟩, ⟨false, none⟩] = 1 :=
  claim_C2 [⟨true, none⟩] [] ⟨false, none⟩ none (by decide) rfl

/-! ### Claim C3 — a fatal cell set after the last check is ignored -/

/-- Counterexample to C3 as stated: one hit is enqueued with the fatal
cell still unset at the per-hit check; a worker then sets the cell while
the item is in flight (it is set when the join returns), yet the run
completes as Done with exit code 0 instead of surfacing
`FatalTranslation` — the producer never reads the cell after the loop. -/
theorem claim_C3_counterexample :
    translate_documents_in_pool [⟨true, none⟩] (some "save failure") = .ok () ∧
    print_done_run [⟨true, none⟩] (some "save failure") =
      { exitCode := 0, errorLog := none } := by
  decide

/-- The producer loop succeeds exactly when every hit is enqueued in
time with the fatal cell unset at its per-hit check. -/
theorem translate_documents_in_pool_ok_iff (events : List HitEvent)
    (j : Option String) :
    translate_documents_in_pool events j = .ok () ↔
      ∀ ev ∈ events, ev.enqueued = true ∧ ev.fatalAfter = none := by
  induction events with
  | nil => simp [translate_documents_in_pool]
  | cons ev rest ih =>
    rw [translate_documents_in_pool]
    cases henq : ev.enqueued with
    | false =>
      have hpd : process_document ev = .error .queueFull := by
        simp [process_document, henq]
      rw [hpd]
      constructor
      · intro h
        simp at h
      · intro h
        exact absurd (h ev (List.mem_cons_self ev rest)).1 (by simp [henq])
    | true =>
      cases hfat : ev.fatalAfter with
      | some e =>
        have hpd : process_document ev = .error (.fatalTranslation e) := by
          simp [process_document, henq, hfat]
        rw [hpd]
        constructor
        · intro h
          simp at h
        · intro h
          have := (h ev (List.mem_cons_self ev rest)).2
          rw [hfat] at this
          cases this
      | none =>
        have hpd : process_document ev = .ok () := by
          simp [process_document, henq, hfat]
        rw [hpd]
        show translate_documents_in_pool rest j = .ok () ↔ _
        rw [ih]
        constructor
        · intro h x hx
          rcases List.mem_cons.mp hx with rfl | hx2
          · exact ⟨henq, hfat⟩
          · exact h x hx2
        · intro h x hx
          exact h x (List.mem_cons_of_mem ev hx)

/-- The outcome of the producer loop does not depend on the value the
fatal cell holds when the join returns. -/
theorem translate_documents_in_pool_join_independent (events : List HitEvent)
    (j1 j2 : Option String) :
    translate_documents_in_pool events j1 = translate_documents_in_pool events j2 := by
  induction events with
  | nil => rfl
  | cons ev rest ih =>
    rw [translate_documents_in_pool, translate_documents_in_pool]
    rcases hpd : process_document ev with e | u
    · rfl
    · cases u
      exact ih

/-- A fatal cell observed at the per-hit check right after an enqueue is
surfaced as `FatalTranslation`. -/
theorem translate_documents_in_pool_fatal (pre post : List HitEvent)
    (ev : HitEvent) (e : String) (j : Option String)
    (hpre : ∀ x ∈ pre, x.enqueued = true ∧ x.fatalAfter = none)
    (henq : ev.enqueued = true) (hfat : ev.fatalAfter = some e) :
    translate_documents_in_pool (pre ++ ev :: post) j =
      .error (.fatalTranslation e) := by
  induction pre with
  | nil =>
    rw [List.nil_append, translate_documents_in_pool]
    simp [process_document, henq, hfat]
  | cons x rest ih =>
    obtain ⟨hx1, hx2⟩ := hpre x (List.mem_cons_self x rest)
    rw [List.cons_append, translate_documents_in_pool]
    have hpd : process_document x = .ok () := by simp [process_document, hx1, hx2]
    rw [hpd]
    exact ih (fun y hy => hpre y (List.mem_cons_of_mem x hy))

/-- C3 amended: the run reaches Done exactly when every hit is enqueued
in time with the fatal cell unset at the one per-hit check made right
after its enqueue; a fatal cell observed at such a check is surfaced as
`FatalTranslation`; but the cell is never read after the last enqueue, so
the outcome is independent of its value when the join returns — a worker
setting the cell while the final items are in flight does not prevent the
run from completing as Done. -/
theorem claim_C3 (events : List HitEvent) (j1 j2 : Option String) :
    (translate_documents_in_pool events j1 = .ok () ↔
      ∀ ev ∈ events, ev.enqueued = true ∧ ev.fatalAfter = none) ∧
    translate_documents_in_pool events j1 = translate_documents_in_pool events j2 ∧
    (∀ pre ev post e, events = pre ++ ev :: post →
      (∀ x ∈ pre, x.enqueued = true ∧ x.fatalAfter = none) →
      ev.enqueued = true → ev.fatalAfter = some e →
      translate_documents_in_pool events j1 = .error (.fatalTranslation e)) := by
  refine ⟨translate_documents_in_pool_ok_iff events j1,
    translate_documents_in_pool_join_independent events j1 j2, ?_⟩
  intro pre ev post e hevents hpre henq hfat
  rw [hevents]
  exact translate_documents_in_pool_fatal pre post ev e j1 hpre henq hfat

/-- Witness for C3 amended: a fatal cell observed after an enqueue is
surfaced, and the outcome of a clean run ignores the join-time value of
the cell. -/
theorem claim_C3_witness :
    translate_documents_in_pool [⟨true, some "boom"⟩] none =
      .error (.fatalTranslation "boom") ∧
    translate_documents_in_pool [⟨true, none⟩] (some "boom") =
      translate_documents_in_pool [⟨true, none⟩] none := by
  constructor
  · exact (claim_C3 [⟨true, some "boom"⟩] none none).2.2
      [] ⟨true, some "boom"⟩ [] "boom" rfl (by simp) rfl rfl
  · exact (claim_C3 [⟨true, none⟩] (some "boom") none).2.1

/-! ### Claim C9 — the update touches only the target field -/

/-- Writing one field of a stored document leaves every other field
unchanged. -/
theorem getField_setField_ne (doc : List (String × FieldValue)) (k k2 : String)
    (v : FieldValue) (hne : k ≠ k2) :
    getField (setField doc k2 v) k = getField doc k := by
  have h2 : (k2 == k) = false := by
    cases h : k2 == k with
    | false => rfl
    | true => exact absurd (eq_of_beq h) (Ne.symm hne)
  induction doc with
  | nil => simp [getField, setField, List.find?, h2]
  | cons kv rest ih =>
    rw [setField]
    cases hcond : kv.1 == k2 with
    | true =>
      have hkv : (kv.1 == k) = false := by
        cases h : kv.1 == k with
        | false => rfl
        | true =>
          exact absurd (eq_of_beq h)
            (by rw [eq_of_beq hcond]; exact Ne.symm hne)
      simp [getField, List.find?, h2, hkv]
    | false =>
      cases hk : kv.1 == k with
      | true => simp [getField, List.find?, hk]
      | false => simpa [getField, List.find?, hk] using ih

/-- C9: `save` issues an update carrying exactly the body
`{doc: {target_field: translations}}` together with the document's
index, id and routing; under the partial-update semantics this changes
no field other than the target field. -/
theorem claim_C9 (h : TranslatedHit) (doc : List (String × FieldValue))
    (k : String) (hk : k ≠ h.target_field) :
    (save h).index = h.index ∧ (save h).id = h.id ∧
    (save h).routing = h.routing ∧
    (save h).body_doc = [(h.target_field, FieldValue.records h.translations)] ∧
    getField (applyUpdate doc (save h)) k = getField doc k := by
  refine ⟨rfl, rfl, rfl, rfl, ?_⟩
  show getField (setField doc h.target_field (FieldValue.records h.translations)) k =
    getField doc k
  exact getField_setField_ne doc k h.target_field _ hk

/-- A stored document with a source field and a target field. -/
def demoDoc : List (String × FieldValue) :=
  [("content", .text "hello"), ("content_translated", .records [])]

/-- Witness for C9: updating the demo document leaves its source field
untouched. -/
theorem claim_C9_witness :
    getField (applyUpdate demoDoc (save hitDone)) "content" =
      getField demoDoc "content" :=
  (claim_C9 hitDone demoDoc "content" (by decide)).2.2.2.2

/-! ### Claim C10 — deferred-task routing is always the document id -/

/-- C10: for a plain dictionary (no attribute named `routing`),
`find_document` always issues the lookup with routing equal to the id
entry, whether or not the dictionary carries a `routing` entry — the
`getattr` call never reads mapping entries, so it always yields its
default `params[id]`. -/
theorem claim_C10 (params : PyDict) (idv idxv : String)
    (hplain : ∀ kv ∈ params.attrs, kv.1 ≠ "routing")
    (hid : pyGetItem params "id" = some idv)
    (hidx : pyGetItem params "index" = some idxv) :
    find_document params = some { index := idxv, id := idv, routing := idv } := by
  have hattr : pyGetattr params "routing" idv = idv := by
    rw [pyGetattr]
    have hnone : params.attrs.find? (fun kv => kv.1 == "routing") = none := by
      rw [List.find?_eq_none]
      intro kv hkv
      simpa using hplain kv hkv
    rw [hnone]
  simp [find_document, hid, hidx, hattr]

/-- A task reference that carries a routing entry different from its id. -/
def demoParams : PyDict :=
  { attrs := [], items := [("index", "idx"), ("id", "doc7"), ("routing", "other")] }

/-- Witness for C10: the routing entry `other` in the reference is
ignored; the lookup goes out with routing `doc7`, the id. -/
theorem claim_C10_witness :
    find_document demoParams = some { index := "idx", id := "doc7", routing := "doc7" } :=
  claim_C10 demoParams "doc7" "idx" (by simp [demoParams]) (by decide) (by decide)

end EsTranslatorSpec
